import Mathlib

/-!
Verification of the lease-based work-distribution core of the
SPEAK-ASR transcription service (`app/services/db_service.py`,
`app/schemas/__init__.py`, `app/api/v1/endpoints/transcription.py`).

The database state is embedded shallowly: the `"Audio"` and
`"Transcriptions"` tables become lists of records, timestamps become
natural numbers (minutes), and each service method becomes a pure state
transformer mirroring the SQL it issues.  Transactions are explicit:
`commit` publishes the pending table and `rollback` restores the base
table, matching the `db.commit()` / `db.rollback()` calls in the source.
-/

/-- Configuration `MAX_TRANSCRIPTIONS_PER_AUDIO` from `app/core/config.py` (default 2). -/
def settings_MAX_TRANSCRIPTIONS : Nat := 2

/-- Configuration `AUDIO_LEASE_TIMEOUT_MINUTES` from `app/core/config.py` (default 15). -/
def settings_LEASE_TIMEOUT_MINUTES : Nat := 15

/-- A row of the `"Audio"` table (`class Audio` in `app/models/__init__.py`).
Timestamps are naturals; `leased_until = none` is SQL `NULL`. -/
structure AudioRow where
  audio_id : Nat
  audio_filename : String
  google_transcription : Option String
  transcription_count : Nat
  leased_until : Option Nat
  start_time : Option Nat
  end_time : Option Nat
  padded_duration : Option Nat
  created_at : Option Nat
deriving DecidableEq

/-- A row of the `"Transcriptions"` table (`class Transcriptions` in
`app/models/__init__.py`). -/
structure TransRow where
  trans_id : Nat
  audio_id : Nat
  transcription : String
  speaker_gender : Option String
  has_noise : Option Bool
  is_code_mixed : Option Bool
  is_speaker_overlappings_exist : Option Bool
  is_audio_suitable : Option Bool
  admin : Option String
  validated_at : Option Nat
  created_at : Option Nat
deriving DecidableEq

/-- The database: the two tables the claim/lease/submission core touches. -/
structure DB where
  audios : List AudioRow
  transcriptions : List TransRow
deriving DecidableEq

/-- SQL condition `leased_until IS NULL OR leased_until < NOW()`. -/
def leaseExpired (now : Nat) (leased_until : Option Nat) : Bool :=
  match leased_until with
  | none => true
  | some t => t < now

/-- Eligibility predicate of the claiming subquery in
`AudioService.claim_audio_for_transcription`:
`transcription_count < MAX_TRANSCRIPTIONS_PER_AUDIO AND (leased_until IS NULL OR leased_until < NOW())`. -/
def audioEligible (now : Nat) (a : AudioRow) : Bool :=
  decide (a.transcription_count < settings_MAX_TRANSCRIPTIONS) && leaseExpired now a.leased_until

/-- Strict comparison realising `ORDER BY transcription_count ASC, audio_id`. -/
def claimLt (a b : AudioRow) : Bool :=
  a.transcription_count < b.transcription_count ||
    (a.transcription_count == b.transcription_count && a.audio_id < b.audio_id)

/-- `ORDER BY transcription_count ASC, audio_id ... LIMIT 1`: the row minimal
for `claimLt` (the first such row on ties, which cannot arise under the
`audio_id` primary key). -/
def selectMin (l : List AudioRow) : Option AudioRow :=
  l.foldl (fun acc a =>
    match acc with
    | none => some a
    | some b => if claimLt a b then some a else some b) none

/-- The effect of `UPDATE "Audio" SET leased_until = ... WHERE audio_id = target`:
every row whose key matches gets the new lease value, all other rows are
untouched. -/
def setLease (newLease : Option Nat) (target : Nat) : List AudioRow → List AudioRow
  | [] => []
  | a :: l =>
      (if a.audio_id == target then { a with leased_until := newLease } else a) ::
        setLease newLease target l

/-- An open transaction over the `"Audio"` table: `base` is the committed
state, `pending` holds uncommitted writes. -/
structure AudioTx where
  base : List AudioRow
  pending : List AudioRow
deriving DecidableEq

/-- Open a transaction. -/
def txBegin (db : DB) : AudioTx := ⟨db.audios, db.audios⟩

/-- `db.commit()`: publish the pending writes. -/
def txCommit (db : DB) (tx : AudioTx) : DB := { db with audios := tx.pending }

/-- `db.rollback()`: discard the pending writes. -/
def txRollback (db : DB) (tx : AudioTx) : DB := { db with audios := tx.base }

/-- The single atomic claiming statement of
`AudioService.claim_audio_for_transcription`:

`UPDATE "Audio" SET leased_until = NOW() + INTERVAL '15 minutes'
 WHERE audio_id = (SELECT audio_id FROM "Audio" WHERE <eligible>
 ORDER BY transcription_count ASC, audio_id FOR UPDATE SKIP LOCKED LIMIT 1)
 RETURNING ...`

It returns the updated row (the `RETURNING` clause sees the new lease). -/
def claimUpdateStatement (now : Nat) (tx : AudioTx) : Option AudioRow × AudioTx :=
  match selectMin (tx.pending.filter (audioEligible now)) with
  | none => (none, tx)
  | some a =>
      let expiry := now + settings_LEASE_TIMEOUT_MINUTES
      (some { a with leased_until := some expiry },
       { tx with pending := setLease (some expiry) a.audio_id tx.pending })

/-- `AudioService.claim_audio_for_transcription`: run the claiming update;
commit and return the claimed row when one was found, otherwise roll back
and return `none`. -/
def claim_audio_for_transcription (now : Nat) (db : DB) : Option AudioRow × DB :=
  let tx := txBegin db
  match claimUpdateStatement now tx with
  | (some r, tx') => (some r, txCommit db tx')
  | (none, tx') => (none, txRollback db tx')

/-- A caller of `claim_audio_for_transcription` whose transaction aborts
before the commit (the `except` branch of the source: `db.rollback()` then
re-raise): the pending lease write is discarded. -/
def claim_audio_aborted (now : Nat) (db : DB) : DB :=
  let tx := txBegin db
  let tx' := (claimUpdateStatement now tx).2
  txRollback db tx'

/-- `AudioService.lease_audio_for_validation`:
`UPDATE "Audio" SET leased_until = NOW() + INTERVAL '15 minutes'
 WHERE audio_id = :audio_id RETURNING audio_id` — commit and return `True`
when a row matched, otherwise roll back and return `False`. -/
def lease_audio_for_validation (now : Nat) (db : DB) (aid : Nat) : Bool × DB :=
  if db.audios.any (fun a => a.audio_id == aid) then
    (true, { db with audios := setLease (some (now + settings_LEASE_TIMEOUT_MINUTES)) aid db.audios })
  else
    (false, db)

/-- `AudioService.release_audio_lease`:
`UPDATE "Audio" SET leased_until = NOW() WHERE audio_id = :audio_id
 RETURNING audio_id` — commit and return `True` when a row matched,
otherwise roll back and return `False`. -/
def release_audio_lease (now : Nat) (db : DB) (aid : Nat) : Bool × DB :=
  if db.audios.any (fun a => a.audio_id == aid) then
    (true, { db with audios := setLease (some now) aid db.audios })
  else
    (false, db)

/-- Run `n` sequential `claim_audio_for_transcription` calls.  Each call is
one atomic committed transaction (`FOR UPDATE SKIP LOCKED` serialises
concurrent claimers row-by-row), so a set of concurrent calls is modelled
by their serialisation. -/
def runClaims (now : Nat) : Nat → DB → List (Option AudioRow) × DB
  | 0, db => ([], db)
  | Nat.succ n, db =>
      let (r, db') := claim_audio_for_transcription now db
      let (rs, db'') := runClaims now n db'
      (r :: rs, db'')

/-- Primary keys of the rows successfully claimed in a run. -/
def claimedIds (rs : List (Option AudioRow)) : List Nat :=
  rs.filterMap (fun r => r.map (fun a => a.audio_id))

/-- Primary keys of the currently eligible (claimable) audio rows. -/
def eligibleIds (now : Nat) (db : DB) : List Nat :=
  (db.audios.filter (audioEligible now)).map (fun a => a.audio_id)

/-- A sample audio row used by concrete witnesses. -/
def sampleAudioA : AudioRow :=
  { audio_id := 2, audio_filename := "b.wav", google_transcription := none,
    transcription_count := 0, leased_until := none, start_time := none,
    end_time := none, padded_duration := none, created_at := none }

/-- A second sample audio row used by concrete witnesses. -/
def sampleAudioB : AudioRow :=
  { audio_id := 1, audio_filename := "a.wav", google_transcription := none,
    transcription_count := 1, leased_until := none, start_time := none,
    end_time := none, padded_duration := none, created_at := none }

/-- A sample two-row pool used by concrete witnesses. -/
def sampleDB : DB := { audios := [sampleAudioA, sampleAudioB], transcriptions := [] }

-- sanity checks on concrete data
example :
    (claim_audio_for_transcription 10 sampleDB).1.map (fun a => (a.audio_id, a.leased_until)) =
      some (2, some 25) := by decide

example :
    (release_audio_lease 7 sampleDB 2).2.audios.map (fun a => a.leased_until) =
      [some 7, none] := by decide

/-- The placeholder text the schema layer and the unsuitable-audio path use. -/
def placeholderText : String := "Audio not suitable for transcription"

/-- Python's `str.strip()`: drop leading and trailing whitespace. -/
def pyStrip (s : String) : String :=
  ⟨((s.data.dropWhile Char.isWhitespace).reverse.dropWhile Char.isWhitespace).reverse⟩

/-- Request body of `POST /api/v1/transcriptions/` before Pydantic validation
(the declared fields of `TranscriptionCreate`). -/
structure RawSubmission where
  audio_id : Nat
  transcription : String
  speaker_gender : String
  has_noise : Bool
  is_code_mixed : Bool
  is_speaker_overlappings_exist : Bool
  is_audio_suitable : Option Bool
  admin : Option String
  is_validated : Bool
deriving DecidableEq

/-- The validated `TranscriptionCreate` Pydantic model
(`app/schemas/__init__.py`).  Note: the model declares no `validated_at`
field. -/
structure TranscriptionCreate where
  audio_id : Nat
  transcription : String
  speaker_gender : String
  has_noise : Bool
  is_code_mixed : Bool
  is_speaker_overlappings_exist : Bool
  is_audio_suitable : Option Bool
  admin : Option String
  is_validated : Bool
deriving DecidableEq

/-- The `validate_transcription_text` field validator of `TranscriptionCreate`
and `TranscriptionValidationUpdate`.  `infoSuitable` is
`info.data.get('is_audio_suitable', True)` — `none` means the key is absent
from `info.data` (Python default `True` applies), `some v` means the key is
present with value `v` (itself an `Option Bool`, as the field is Optional). -/
def validate_transcription_text (v : String) (infoSuitable : Option (Option Bool)) :
    Except String String :=
  let is_audio_suitable : Option Bool := infoSuitable.getD (some true)
  if is_audio_suitable == some false then
    Except.ok (if v == "" then placeholderText else v)
  else if pyStrip v == "" then
    Except.error "Transcription text cannot be empty"
  else
    Except.ok (pyStrip v)

/-- Pydantic construction of `TranscriptionCreate`.  Fields are validated in
declaration order; `transcription` is declared before `is_audio_suitable`,
so when `validate_transcription_text` runs, `info.data` does not yet contain
`is_audio_suitable` and the validator falls back to the default `True`.
The `min_length=1` constraint on `transcription` runs before the validator. -/
def mkTranscriptionCreate (raw : RawSubmission) : Except String TranscriptionCreate :=
  if raw.transcription == "" then
    Except.error "String should have at least 1 character"
  else
    match validate_transcription_text raw.transcription none with
    | Except.error e => Except.error e
    | Except.ok t =>
        Except.ok { audio_id := raw.audio_id, transcription := t,
                    speaker_gender := raw.speaker_gender, has_noise := raw.has_noise,
                    is_code_mixed := raw.is_code_mixed,
                    is_speaker_overlappings_exist := raw.is_speaker_overlappings_exist,
                    is_audio_suitable := raw.is_audio_suitable, admin := raw.admin,
                    is_validated := raw.is_validated }

/-- Outcome of the external `gcs_service.delete_blob` call: deleted, blob
absent (returns `False`), or an exception raised by the client library. -/
inductive GcsOutcome
  | deleted
  | blobMissing
  | raised
deriving DecidableEq

/-- Python exceptions that the service layer can surface. -/
inductive PyError
  | attributeError (name : String)
  | valueError (msg : String)
deriving DecidableEq

/-- `Audio`-table scrub applied by `TranscriptionService.create_transcription`
when the submission flags the audio unsuitable. -/
def scrubAudioRow (a : AudioRow) : AudioRow :=
  { a with audio_filename := "not_suitable",
           google_transcription := some placeholderText,
           start_time := none, end_time := none,
           padded_duration := none, created_at := none }

/-- The `Transcriptions` row inserted for an unsuitable submission: every
quality-metadata field, the attribution and the timestamps are nulled. -/
def unsuitableTransRow (newTransId : Nat) (td : TranscriptionCreate) : TransRow :=
  { trans_id := newTransId, audio_id := td.audio_id, transcription := td.transcription,
    speaker_gender := none, has_noise := none, is_code_mixed := none,
    is_speaker_overlappings_exist := none, is_audio_suitable := some false,
    admin := none, validated_at := none, created_at := none }

/-- `TranscriptionService.create_transcription`.  `gcsOutcome` is the result
of the external delete; the third component records the `delete_blob` calls
issued along with their outcomes.

Unsuitable path: fetch the audio row; if present, attempt
`gcs_service.delete_blob(original_filename)` — every outcome, including a
raised exception, is swallowed (`try/except` around the call) — then scrub
the audio row and insert the nulled transcription row, all committed
together.  If the audio row is absent the scrub and delete are skipped but
the insert still happens.

Suitable path: the code evaluates `transcription_data.validated_at`, an
attribute the `TranscriptionCreate` Pydantic model does not declare, so the
statement raises `AttributeError` before `db.add`; the session performs no
write. -/
def create_transcription (gcsOutcome : GcsOutcome) (newTransId : Nat) (db : DB)
    (td : TranscriptionCreate) :
    Except PyError TransRow × DB × List (String × GcsOutcome) :=
  let is_unsuitable := td.is_audio_suitable == some false
  if is_unsuitable then
    match db.audios.find? (fun a => a.audio_id == td.audio_id) with
    | some audio_record =>
        let deleteCalls := [(audio_record.audio_filename, gcsOutcome)]
        let audios' := db.audios.map (fun a =>
          if a.audio_id == td.audio_id then scrubAudioRow a else a)
        let row := unsuitableTransRow newTransId td
        (Except.ok row,
         { audios := audios', transcriptions := db.transcriptions ++ [row] },
         deleteCalls)
    | none =>
        let row := unsuitableTransRow newTransId td
        (Except.ok row, { db with transcriptions := db.transcriptions ++ [row] }, [])
  else
    (Except.error (PyError.attributeError "validated_at"), db, [])

/-- Errors surfaced by the `POST /api/v1/transcriptions/` endpoint. -/
inductive ApiError
  | validationFailure (msg : String)
  | notFound
  | internalError
deriving DecidableEq

/-- The `create_transcription` endpoint in
`app/api/v1/endpoints/transcription.py`: FastAPI first builds the
`TranscriptionCreate` body (a validation failure is a 422 before any
database access), the handler then checks the audio exists (404 otherwise)
and calls `TranscriptionService.create_transcription`; an unhandled
exception becomes a 500 with the session rolled back. -/
def post_transcription (gcsOutcome : GcsOutcome) (newTransId : Nat) (db : DB)
    (raw : RawSubmission) :
    Except ApiError TransRow × DB × List (String × GcsOutcome) :=
  match mkTranscriptionCreate raw with
  | Except.error e => (Except.error (ApiError.validationFailure e), db, [])
  | Except.ok td =>
      if db.audios.any (fun a => a.audio_id == td.audio_id) then
        match create_transcription gcsOutcome newTransId db td with
        | (Except.ok row, db', calls) => (Except.ok row, db', calls)
        | (Except.error _, db', calls) => (Except.error ApiError.internalError, db', calls)
      else
        (Except.error ApiError.notFound, db, [])

/-- Eligibility of a joined (transcription, audio) pair in the validation
queue query of `TranscriptionService.get_next_unvalidated_transcription`:
`t.is_audio_suitable = TRUE AND t.validated_at IS NULL AND
(a.leased_until IS NULL OR a.leased_until < NOW())`. -/
def validationEligiblePair (now : Nat) (t : TransRow) (a : AudioRow) : Bool :=
  t.is_audio_suitable == some true && t.validated_at == none &&
    leaseExpired now a.leased_until

/-- `JOIN "Audio" a ON t.audio_id = a.audio_id` for one transcription row
(the primary key makes the match unique). -/
def joinAudioRow (db : DB) (t : TransRow) : Option (TransRow × AudioRow) :=
  (db.audios.find? (fun a => a.audio_id == t.audio_id)).map (fun a => (t, a))

/-- The rows satisfying the validation queue's `WHERE` clause. -/
def validationCandidates (now : Nat) (db : DB) : List (TransRow × AudioRow) :=
  (db.transcriptions.filterMap (joinAudioRow db)).filter
    (fun p => validationEligiblePair now p.1 p.2)

/-- Sort key for `ORDER BY t.created_at ASC`: with ascending order SQL puts
`NULL` timestamps last. -/
def createdKey (p : TransRow × AudioRow) : Nat × Nat :=
  match p.1.created_at with
  | some c => (0, c)
  | none => (1, 0)

/-- `ORDER BY t.created_at ASC` as a total preorder on joined pairs
(lexicographic on the sort key). -/
def createdLe (p q : TransRow × AudioRow) : Prop :=
  (createdKey p).1 < (createdKey q).1 ∨
    ((createdKey p).1 = (createdKey q).1 ∧ (createdKey p).2 ≤ (createdKey q).2)

instance : DecidableRel createdLe := fun p q => by
  unfold createdLe
  infer_instance

instance : IsTotal (TransRow × AudioRow) createdLe :=
  ⟨fun p q => by unfold createdLe; omega⟩

instance : IsTrans (TransRow × AudioRow) createdLe :=
  ⟨fun p q r => by unfold createdLe; omega⟩

/-- The `ORDER BY t.created_at ASC LIMIT 5` candidate window of the
validation queue. -/
def validationWindow (now : Nat) (db : DB) : List (TransRow × AudioRow) :=
  (List.insertionSort createdLe (validationCandidates now db)).take 5

/-- The fallback loop of `get_next_unvalidated_transcription`: try to lease
each candidate's parent audio in order; return the first pair whose lease
attempt succeeds (the returned audio data is the row fetched by the
`SELECT`, i.e. with its pre-lease `leased_until`). -/
def validationLoop (now : Nat) :
    List (TransRow × AudioRow) → DB → Option (TransRow × AudioRow) × DB
  | [], db => (none, db)
  | p :: rest, db =>
      match lease_audio_for_validation now db p.1.audio_id with
      | (true, db') => (some p, db')
      | (false, db') => validationLoop now rest db'

/-- `TranscriptionService.get_next_unvalidated_transcription`. -/
def get_next_unvalidated_transcription (now : Nat) (db : DB) :
    Option (TransRow × AudioRow) × DB :=
  validationLoop now (validationWindow now db) db

/-- The validated `TranscriptionValidationUpdate` Pydantic model. -/
structure TranscriptionValidationUpdate where
  transcription : String
  speaker_gender : String
  has_noise : Bool
  is_code_mixed : Bool
  is_speaker_overlappings_exist : Bool
  is_audio_suitable : Option Bool
  admin : Option String
deriving DecidableEq

/-- The field updates `TranscriptionService.validate_transcription` applies
to the fetched row: content and quality metadata are overwritten,
`is_audio_suitable` only when the update carries a value, `validated_at`
is set to the current time, and (per the source comment) the original
`admin` value is kept unchanged. -/
def applyValidation (now : Nat) (u : TranscriptionValidationUpdate) (t : TransRow) : TransRow :=
  { t with transcription := pyStrip u.transcription,
           speaker_gender := some u.speaker_gender,
           has_noise := some u.has_noise,
           is_code_mixed := some u.is_code_mixed,
           is_speaker_overlappings_exist := some u.is_speaker_overlappings_exist,
           is_audio_suitable :=
             match u.is_audio_suitable with
             | some b => some b
             | none => t.is_audio_suitable,
           validated_at := some now }

/-- `TranscriptionService.validate_transcription`: fetch the row by primary
key (`ValueError` if absent, session unchanged), apply the corrections,
commit, then release the parent audio's lease best-effort (its outcome is
only logged). -/
def validate_transcription (now : Nat) (db : DB) (tid : Nat)
    (u : TranscriptionValidationUpdate) : Except PyError TransRow × DB :=
  match db.transcriptions.find? (fun t => t.trans_id == tid) with
  | none => (Except.error (PyError.valueError "Transcription not found"), db)
  | some t =>
      let t' := applyValidation now u t
      let db' := { db with transcriptions :=
        db.transcriptions.map (fun s => if s.trans_id == tid then t' else s) }
      let db'' := (release_audio_lease now db' t.audio_id).2
      (Except.ok t', db'')

-- sanity check: an unsuitable submission keeps the submitted text
example :
    ((post_transcription GcsOutcome.raised 9
        { audios := [sampleAudioA], transcriptions := [] }
        { audio_id := 2, transcription := "heard nothing", speaker_gender := "male",
          has_noise := false, is_code_mixed := false,
          is_speaker_overlappings_exist := false, is_audio_suitable := some false,
          admin := none, is_validated := false }).1.map (fun r => r.transcription)) =
      Except.ok "heard nothing" := rfl

/-! ### Helper lemmas: selection and lease bookkeeping -/

/-- The reflexive closure of the `ORDER BY transcription_count ASC, audio_id`
comparison, as a proposition. -/
def claimKeyLe (a b : AudioRow) : Prop :=
  a.transcription_count < b.transcription_count ∨
    (a.transcription_count = b.transcription_count ∧ a.audio_id ≤ b.audio_id)

lemma claimKeyLe_refl (a : AudioRow) : claimKeyLe a a := by
  unfold claimKeyLe; omega

lemma claimKeyLe_trans {a b c : AudioRow} (h1 : claimKeyLe a b) (h2 : claimKeyLe b c) :
    claimKeyLe a c := by
  unfold claimKeyLe at *; omega

lemma claimLt_true_keyLe {a b : AudioRow} (h : claimLt a b = true) : claimKeyLe a b := by
  simp only [claimLt, Bool.or_eq_true, Bool.and_eq_true, decide_eq_true_eq,
    beq_iff_eq] at h
  unfold claimKeyLe; omega

lemma claimLt_false_keyLe {a b : AudioRow} (h : claimLt a b = false) : claimKeyLe b a := by
  simp only [claimLt, Bool.or_eq_false_iff, Bool.and_eq_false_iff, decide_eq_false_iff_not,
    Bool.not_eq_true, beq_eq_false_iff_ne, ne_eq, not_lt] at h
  unfold claimKeyLe
  rcases h with ⟨h1, h2 | h2⟩ <;> omega

lemma selectMin_go {l : List AudioRow} : ∀ b : AudioRow,
    ∃ r, (l.foldl (fun acc a =>
        match acc with
        | none => some a
        | some b => if claimLt a b then some a else some b) (some b)) = some r ∧
      (r = b ∨ r ∈ l) ∧ claimKeyLe r b ∧ ∀ c ∈ l, claimKeyLe r c := by
  induction l with
  | nil => exact fun b => ⟨b, rfl, Or.inl rfl, claimKeyLe_refl b, by simp⟩
  | cons a l ih =>
    intro b
    by_cases hab : claimLt a b = true
    · obtain ⟨r, hr, hmem, hra, hall⟩ := ih a
      refine ⟨r, by simpa [hab] using hr, ?_, ?_, ?_⟩
      · rcases hmem with h | h
        · exact Or.inr (by simp [h])
        · exact Or.inr (by simp [h])
      · exact claimKeyLe_trans hra (claimLt_true_keyLe hab)
      · intro c hc
        rcases List.mem_cons.mp hc with rfl | hc
        · exact hra
        · exact hall c hc
    · obtain ⟨r, hr, hmem, hrb, hall⟩ := ih b
      have hab' : claimLt a b = false := by simpa using hab
      refine ⟨r, by simpa [hab'] using hr, ?_, hrb, ?_⟩
      · rcases hmem with h | h
        · exact Or.inl h
        · exact Or.inr (by simp [h])
      · intro c hc
        rcases List.mem_cons.mp hc with rfl | hc
        · exact claimKeyLe_trans hrb (claimLt_false_keyLe hab')
        · exact hall c hc

lemma selectMin_spec {l : List AudioRow} {r : AudioRow} (h : selectMin l = some r) :
    r ∈ l ∧ ∀ c ∈ l, claimKeyLe r c := by
  cases l with
  | nil => simp [selectMin] at h
  | cons a l =>
    obtain ⟨r', hr', hmem, hra, hall⟩ := selectMin_go (l := l) a
    have : r' = r := by
      have := h
      simp only [selectMin, List.foldl_cons] at this
      rw [hr'] at this
      exact Option.some_injective _ this
    subst this
    constructor
    · rcases hmem with h' | h'
      · simp [h']
      · simp [h']
    · intro c hc
      rcases List.mem_cons.mp hc with rfl | hc
      · exact hra
      · exact hall c hc

lemma selectMin_eq_none {l : List AudioRow} : selectMin l = none ↔ l = [] := by
  constructor
  · intro h
    cases l with
    | nil => rfl
    | cons a l =>
      obtain ⟨r', hr', -⟩ := selectMin_go (l := l) a
      simp only [selectMin, List.foldl_cons] at h
      rw [hr'] at h
      exact absurd h (by simp)
  · rintro rfl; rfl


lemma setLease_map_id (v : Option Nat) (x : Nat) (l : List AudioRow) :
    (setLease v x l).map (fun a => a.audio_id) = l.map (fun a => a.audio_id) := by
  induction l with
  | nil => rfl
  | cons a l ih =>
    by_cases h : (a.audio_id == x) = true
    · simp [setLease, h, ih]
    · simp [setLease, h, ih]

lemma setLease_length (v : Option Nat) (x : Nat) (l : List AudioRow) :
    (setLease v x l).length = l.length := by
  induction l with
  | nil => rfl
  | cons a l ih => simp [setLease, ih]

lemma mem_setLease_self {x : Nat} {a : AudioRow} {l : List AudioRow} (v : Option Nat)
    (h : a ∈ l) (hx : a.audio_id = x) : { a with leased_until := v } ∈ setLease v x l := by
  induction l with
  | nil => cases h
  | cons b l ih =>
    rcases List.mem_cons.mp h with rfl | h'
    · simp [setLease, hx]
    · exact List.mem_cons_of_mem _ (ih h')

lemma mem_setLease_other {x : Nat} {a : AudioRow} {l : List AudioRow} (v : Option Nat)
    (h : a ∈ l) (hx : a.audio_id ≠ x) : a ∈ setLease v x l := by
  induction l with
  | nil => cases h
  | cons b l ih =>
    rcases List.mem_cons.mp h with rfl | h'
    · simp [setLease, hx]
    · exact List.mem_cons_of_mem _ (ih h')

lemma setLease_idem (v : Option Nat) (x : Nat) (l : List AudioRow) :
    setLease v x (setLease v x l) = setLease v x l := by
  induction l with
  | nil => rfl
  | cons a l ih =>
    by_cases h : (a.audio_id == x) = true
    · simp [setLease, h, ih]
    · simp [setLease, h, ih]

lemma audioEligible_false_of_fresh {now : Nat} {a : AudioRow}
    (h : a.leased_until = some (now + settings_LEASE_TIMEOUT_MINUTES)) :
    audioEligible now a = false := by
  simp only [audioEligible, leaseExpired, h, Bool.and_eq_false_iff]
  right
  simp [settings_LEASE_TIMEOUT_MINUTES]

lemma filter_setLease_ids (now x : Nat) (l : List AudioRow) :
    ((setLease (some (now + settings_LEASE_TIMEOUT_MINUTES)) x l).filter
        (audioEligible now)).map (fun a => a.audio_id) =
      ((l.filter (audioEligible now)).map (fun a => a.audio_id)).filter
        (fun i => !(i == x)) := by
  induction l with
  | nil => rfl
  | cons a l ih =>
    by_cases hx : (a.audio_id == x) = true
    · have hfresh : audioEligible now { a with leased_until := some (now + settings_LEASE_TIMEOUT_MINUTES) } = false := audioEligible_false_of_fresh rfl
      by_cases he : audioEligible now a = true
      · simp [setLease, hx, hfresh, List.filter_cons, he, ih]
      · simp [setLease, hx, hfresh, List.filter_cons, he, ih]
    · have hx' : (a.audio_id == x) = false := by simpa using hx
      by_cases he : audioEligible now a = true
      · simp [setLease, hx', List.filter_cons, he, ih]
      · simp [setLease, hx', List.filter_cons, he, ih]

lemma length_filter_ne_of_nodup {l : List Nat} {x : Nat} (h : l.Nodup) (hx : x ∈ l) :
    (l.filter (fun i => !(i == x))).length = l.length - 1 := by
  induction l with
  | nil => cases hx
  | cons a l ih =>
    by_cases hax : a = x
    · subst hax
      have hnot : a ∉ l := (List.nodup_cons.mp h).1
      have hfl : l.filter (fun i => !(i == a)) = l :=
        List.filter_eq_self.mpr (fun b hb => by
          have hba : b ≠ a := fun hba => hnot (hba ▸ hb)
          simp [hba])
      simp [List.filter_cons, hfl]
    · have hmem : x ∈ l := by
        rcases List.mem_cons.mp hx with h1 | h1
        · exact absurd h1.symm hax
        · exact h1
      have h2 := ih (List.nodup_cons.mp h).2 hmem
      have hlpos : 0 < l.length := List.length_pos.mpr (List.ne_nil_of_mem hmem)
      simp only [List.filter_cons, beq_iff_eq, hax, if_false, Bool.not_false, if_true,
        List.length_cons, h2]
      simp [hax, h2]
      omega

lemma nodup_eligibleIds {now : Nat} {db : DB}
    (h : (db.audios.map (fun a => a.audio_id)).Nodup) : (eligibleIds now db).Nodup := by
  have hsub : (db.audios.filter (audioEligible now)).Sublist db.audios :=
    List.filter_sublist _
  exact (hsub.map (fun a => a.audio_id)).nodup h

lemma claim_eq_of_selectMin_none {now : Nat} {db : DB}
    (hsel : selectMin (db.audios.filter (audioEligible now)) = none) :
    claim_audio_for_transcription now db = (none, db) := by
  simp [claim_audio_for_transcription, txBegin, claimUpdateStatement, txRollback, hsel]

lemma claim_eq_of_selectMin_some {now : Nat} {db : DB} {a : AudioRow}
    (hsel : selectMin (db.audios.filter (audioEligible now)) = some a) :
    claim_audio_for_transcription now db =
      (some { a with leased_until := some (now + settings_LEASE_TIMEOUT_MINUTES) },
       { db with audios :=
         setLease (some (now + settings_LEASE_TIMEOUT_MINUTES)) a.audio_id db.audios }) := by
  simp [claim_audio_for_transcription, txBegin, claimUpdateStatement, txCommit, hsel]

lemma claim_none_spec {now : Nat} {db : DB} {db' : DB}
    (h : claim_audio_for_transcription now db = (none, db')) :
    db' = db ∧ db.audios.filter (audioEligible now) = [] := by
  cases hsel : selectMin (db.audios.filter (audioEligible now)) with
  | none =>
    have h2 := (claim_eq_of_selectMin_none hsel).symm.trans h
    exact ⟨(congrArg Prod.snd h2).symm, selectMin_eq_none.mp hsel⟩
  | some a =>
    have h2 := (claim_eq_of_selectMin_some hsel).symm.trans h
    exact absurd (congrArg Prod.fst h2) (by simp)

lemma claim_some_spec {now : Nat} {db : DB} {r : AudioRow} {db' : DB}
    (h : claim_audio_for_transcription now db = (some r, db')) :
    ∃ a, a ∈ db.audios ∧ audioEligible now a = true ∧
      (∀ b ∈ db.audios, audioEligible now b = true → claimKeyLe a b) ∧
      r = { a with leased_until := some (now + settings_LEASE_TIMEOUT_MINUTES) } ∧
      db' = { db with audios := setLease (some (now + settings_LEASE_TIMEOUT_MINUTES)) a.audio_id db.audios } := by
  cases hsel : selectMin (db.audios.filter (audioEligible now)) with
  | none =>
    have h2 := (claim_eq_of_selectMin_none hsel).symm.trans h
    exact absurd (congrArg Prod.fst h2) (by simp)
  | some a =>
    have h2 := (claim_eq_of_selectMin_some hsel).symm.trans h
    have hr : r = { a with leased_until := some (now + settings_LEASE_TIMEOUT_MINUTES) } := by
      have := congrArg Prod.fst h2
      simpa using this.symm
    have hdb : db' = { db with audios := setLease (some (now + settings_LEASE_TIMEOUT_MINUTES)) a.audio_id db.audios } :=
      (congrArg Prod.snd h2).symm
    obtain ⟨hmem, hmin⟩ := selectMin_spec hsel
    refine ⟨a, (List.mem_filter.mp hmem).1, (List.mem_filter.mp hmem).2, ?_, hr, hdb⟩
    intro b hb he
    exact hmin b (List.mem_filter.mpr ⟨hb, he⟩)

lemma claim_audio_aborted_eq (now : Nat) (db : DB) : claim_audio_aborted now db = db := by
  cases hsel : selectMin (db.audios.filter (audioEligible now)) with
  | none => simp [claim_audio_aborted, txBegin, txRollback, claimUpdateStatement, hsel]
  | some a => simp [claim_audio_aborted, txBegin, txRollback, claimUpdateStatement, hsel]

lemma claim_some_ids {now : Nat} {db : DB} {r : AudioRow} {db' : DB}
    (h : claim_audio_for_transcription now db = (some r, db')) :
    db'.audios.map (fun a => a.audio_id) = db.audios.map (fun a => a.audio_id) ∧
    eligibleIds now db' = (eligibleIds now db).filter (fun i => !(i == r.audio_id)) ∧
    r.audio_id ∈ eligibleIds now db := by
  obtain ⟨a, hmem, helig, hmin, hr, hdb⟩ := claim_some_spec h
  have hid : r.audio_id = a.audio_id := by rw [hr]
  subst hdb
  refine ⟨setLease_map_id _ _ _, ?_, ?_⟩
  · rw [hid]
    exact filter_setLease_ids now a.audio_id db.audios
  · rw [hid]
    exact List.mem_map_of_mem _ (List.mem_filter.mpr ⟨hmem, helig⟩)

lemma claimedIds_cons_none (rs : List (Option AudioRow)) :
    claimedIds (none :: rs) = claimedIds rs := by
  simp [claimedIds]

lemma claimedIds_cons_some (a : AudioRow) (rs : List (Option AudioRow)) :
    claimedIds (some a :: rs) = a.audio_id :: claimedIds rs := by
  simp [claimedIds]

lemma runClaims_spec (now : Nat) : ∀ (n : Nat) (db : DB),
    (db.audios.map (fun a => a.audio_id)).Nodup →
    (claimedIds (runClaims now n db).1).length = min n (eligibleIds now db).length ∧
    (claimedIds (runClaims now n db).1).Nodup ∧
    (∀ i ∈ claimedIds (runClaims now n db).1, i ∈ eligibleIds now db) ∧
    (runClaims now n db).1.length = n := by
  intro n
  induction n with
  | zero => intro db _; simp [runClaims, claimedIds]
  | succ n ih =>
    intro db hnd
    cases hsel : selectMin (db.audios.filter (audioEligible now)) with
    | none =>
      have hc := claim_eq_of_selectMin_none hsel
      have hrun : runClaims now (n + 1) db =
          (none :: (runClaims now n db).1, (runClaims now n db).2) := by
        simp [runClaims, hc]
      have hel : eligibleIds now db = [] := by
        simp [eligibleIds, selectMin_eq_none.mp hsel]
      obtain ⟨ih1, ih2, ih3, ih4⟩ := ih db hnd
      rw [hrun]
      refine ⟨?_, ?_, ?_, ?_⟩
      · rw [claimedIds_cons_none, ih1, hel]
        simp
      · rw [claimedIds_cons_none]; exact ih2
      · intro i hi
        rw [claimedIds_cons_none] at hi
        exact ih3 i hi
      · simp [ih4]
    | some a =>
      have hc := claim_eq_of_selectMin_some hsel
      set r : AudioRow := { a with leased_until := some (now + settings_LEASE_TIMEOUT_MINUTES) }
        with hrdef
      set db₂ : DB := { db with audios := setLease (some (now + settings_LEASE_TIMEOUT_MINUTES)) a.audio_id db.audios } with hdb2def
      have hrun : runClaims now (n + 1) db =
          (some r :: (runClaims now n db₂).1, (runClaims now n db₂).2) := by
        simp [runClaims, hc]
      obtain ⟨hids, hel, hmem⟩ := claim_some_ids hc
      have hnd2 : (db₂.audios.map (fun b => b.audio_id)).Nodup := by
        rw [hids]; exact hnd
      obtain ⟨ih1, ih2, ih3, ih4⟩ := ih db₂ hnd2
      have hnodup_el : (eligibleIds now db).Nodup := nodup_eligibleIds hnd
      have hlen2 : (eligibleIds now db₂).length = (eligibleIds now db).length - 1 := by
        rw [hel]
        exact length_filter_ne_of_nodup hnodup_el hmem
      have hpos : 0 < (eligibleIds now db).length :=
        List.length_pos.mpr (List.ne_nil_of_mem hmem)
      rw [hrun]
      refine ⟨?_, ?_, ?_, ?_⟩
      · rw [claimedIds_cons_some, List.length_cons, ih1, hlen2]
        omega
      · rw [claimedIds_cons_some]
        refine List.nodup_cons.mpr ⟨?_, ih2⟩
        intro hin
        have h3 := ih3 r.audio_id hin
        rw [hel] at h3
        have h4 := List.mem_filter.mp h3
        simp at h4
      · intro i hi
        rw [claimedIds_cons_some] at hi
        rcases List.mem_cons.mp hi with rfl | hi'
        · exact hmem
        · have h3 := ih3 i hi'
          rw [hel] at h3
          exact (List.mem_filter.mp h3).1
      · simp [ih4]

/-! ### Helper lemmas: validation queue -/

lemma createdLe_refl (p : TransRow × AudioRow) : createdLe p p := by
  unfold createdLe; omega

lemma mem_validationCandidates {now : Nat} {db : DB} {p : TransRow × AudioRow}
    (h : p ∈ validationCandidates now db) :
    p.1 ∈ db.transcriptions ∧ p.2 ∈ db.audios ∧ p.2.audio_id = p.1.audio_id ∧
      p.1.is_audio_suitable = some true ∧ p.1.validated_at = none ∧
      leaseExpired now p.2.leased_until = true := by
  obtain ⟨hmem, helig⟩ := List.mem_filter.mp h
  obtain ⟨t, ht, hjoin⟩ := List.mem_filterMap.mp hmem
  obtain ⟨a, hfind, hpa⟩ := Option.map_eq_some'.mp hjoin
  have hamem : a ∈ db.audios := List.mem_of_find?_eq_some hfind
  have haid : a.audio_id = t.audio_id := by simpa using List.find?_some hfind
  obtain ⟨h1, h2, h3⟩ : p.1.is_audio_suitable = some true ∧ p.1.validated_at = none ∧
      leaseExpired now p.2.leased_until = true := by
    simpa [validationEligiblePair, and_assoc] using helig
  have hp1 : p.1 = t := by rw [← hpa]
  have hp2 : p.2 = a := by rw [← hpa]
  exact ⟨hp1 ▸ ht, hp2 ▸ hamem, by rw [hp1, hp2]; exact haid, h1, h2, h3⟩

lemma window_subset_candidates {now : Nat} {db : DB} {p : TransRow × AudioRow}
    (h : p ∈ validationWindow now db) : p ∈ validationCandidates now db := by
  have h1 : p ∈ List.insertionSort createdLe (validationCandidates now db) :=
    (List.take_sublist 5 _).subset h
  exact (List.perm_insertionSort createdLe (validationCandidates now db)).subset h1

lemma lease_true_of_candidate {now : Nat} {db : DB} {p : TransRow × AudioRow}
    (h : p ∈ validationCandidates now db) :
    (lease_audio_for_validation now db p.1.audio_id).1 = true := by
  obtain ⟨-, hamem, haid, -⟩ := mem_validationCandidates h
  have hany : db.audios.any (fun a => a.audio_id == p.1.audio_id) = true :=
    List.any_eq_true.mpr ⟨p.2, hamem, by simpa using haid⟩
  simp [lease_audio_for_validation, hany]

lemma lease_state_of_true {now : Nat} {db : DB} {aid : Nat}
    (h : db.audios.any (fun a => a.audio_id == aid) = true) :
    lease_audio_for_validation now db aid =
      (true, { db with audios := setLease (some (now + settings_LEASE_TIMEOUT_MINUTES)) aid db.audios }) := by
  simp [lease_audio_for_validation, h]

lemma get_next_of_window_cons {now : Nat} {db : DB} {p : TransRow × AudioRow}
    {rest : List (TransRow × AudioRow)} (hw : validationWindow now db = p :: rest) :
    get_next_unvalidated_transcription now db =
      (some p, (lease_audio_for_validation now db p.1.audio_id).2) := by
  have hp : p ∈ validationCandidates now db :=
    window_subset_candidates (by rw [hw]; exact List.mem_cons_self _ _)
  have htrue := lease_true_of_candidate hp
  unfold get_next_unvalidated_transcription
  rw [hw]
  unfold validationLoop
  cases hl : lease_audio_for_validation now db p.1.audio_id with
  | mk ok db₂ =>
    cases ok with
    | true => simp [hl]
    | false => rw [hl] at htrue; simp at htrue

lemma get_next_of_no_candidates {now : Nat} {db : DB}
    (h : validationCandidates now db = []) :
    get_next_unvalidated_transcription now db = (none, db) := by
  unfold get_next_unvalidated_transcription validationWindow
  rw [h]
  rfl

lemma window_nil_iff {now : Nat} {db : DB} :
    validationWindow now db = [] ↔ validationCandidates now db = [] := by
  unfold validationWindow
  constructor
  · intro h
    have hperm := List.perm_insertionSort createdLe (validationCandidates now db)
    cases hs : List.insertionSort createdLe (validationCandidates now db) with
    | nil =>
      rw [hs] at hperm
      exact List.eq_nil_of_length_eq_zero (by simpa using hperm.length_eq.symm)
    | cons q tail => rw [hs] at h; simp at h
  · intro h
    rw [h]
    rfl

lemma sorted_head_min {now : Nat} {db : DB} {p : TransRow × AudioRow}
    {rest : List (TransRow × AudioRow)} (hw : validationWindow now db = p :: rest) :
    ∀ q ∈ validationCandidates now db, createdLe p q := by
  have hsorted : List.Sorted createdLe
      (List.insertionSort createdLe (validationCandidates now db)) :=
    List.sorted_insertionSort createdLe (validationCandidates now db)
  have hperm := List.perm_insertionSort createdLe (validationCandidates now db)
  cases hs : List.insertionSort createdLe (validationCandidates now db) with
  | nil =>
    unfold validationWindow at hw
    rw [hs] at hw
    simp at hw
  | cons h0 tail =>
    rw [hs] at hsorted hperm
    have hph : h0 = p := by
      unfold validationWindow at hw
      rw [hs] at hw
      simp only [List.take_succ_cons] at hw
      exact (List.cons.injEq _ _ _ _ ▸ hw).1
    rw [hph] at hsorted hperm
    intro q hq
    have hq' : q ∈ p :: tail := hperm.symm.subset hq
    rcases List.mem_cons.mp hq' with rfl | hq''
    · exact createdLe_refl q
    · exact List.rel_of_sorted_cons hsorted q hq''

lemma any_id_setLease (v : Option Nat) (x aid : Nat) (l : List AudioRow) :
    (setLease v x l).any (fun a => a.audio_id == aid) =
      l.any (fun a => a.audio_id == aid) := by
  induction l with
  | nil => rfl
  | cons a l ih =>
    by_cases h : (a.audio_id == x) = true
    · simp [setLease, h, ih]
    · simp [setLease, h, ih]

/-! ### Concrete rows and databases used by witnesses and counterexamples -/

/-- An audio row whose lease extends to time 100, used as the failing input
for the submit-releases-lease claims. -/
def leasedAudio : AudioRow :=
  { audio_id := 1, audio_filename := "clip1.wav", google_transcription := some "machine draft",
    transcription_count := 0, leased_until := some 100, start_time := some 2,
    end_time := some 3, padded_duration := some 4, created_at := some 5 }

/-- One-row pool holding `leasedAudio`. -/
def scrubDB : DB := { audios := [leasedAudio], transcriptions := [] }

/-- A request flagging the audio unsuitable while carrying non-empty text. -/
def unsuitableRaw : RawSubmission :=
  { audio_id := 1, transcription := "still audible speech", speaker_gender := "female",
    has_noise := true, is_code_mixed := false, is_speaker_overlappings_exist := false,
    is_audio_suitable := some false, admin := some "kokila", is_validated := false }

/-- A suitable submission whose content is whitespace only. -/
def blankRaw : RawSubmission :=
  { audio_id := 2, transcription := "   ", speaker_gender := "male",
    has_noise := false, is_code_mixed := false, is_speaker_overlappings_exist := false,
    is_audio_suitable := some true, admin := none, is_validated := false }

/-- A pool whose only row sits at the completion ceiling. -/
def saturatedDB : DB :=
  { audios := [{ sampleAudioB with transcription_count := 2 }], transcriptions := [] }

/-- Validation-queue sample parent row 1 (unleased). -/
def valAudio1 : AudioRow :=
  { audio_id := 11, audio_filename := "v1.wav", google_transcription := none,
    transcription_count := 1, leased_until := none, start_time := none,
    end_time := none, padded_duration := none, created_at := some 1 }

/-- Validation-queue sample parent row 2 (lease expired at time 2). -/
def valAudio2 : AudioRow :=
  { audio_id := 12, audio_filename := "v2.wav", google_transcription := none,
    transcription_count := 1, leased_until := some 2, start_time := none,
    end_time := none, padded_duration := none, created_at := some 2 }

/-- Oldest suitable unvalidated submission (created at 1). -/
def valTransA : TransRow :=
  { trans_id := 21, audio_id := 11, transcription := "first text",
    speaker_gender := some "male", has_noise := some false, is_code_mixed := some false,
    is_speaker_overlappings_exist := some false, is_audio_suitable := some true,
    admin := some "chirath", validated_at := none, created_at := some 1 }

/-- Second suitable unvalidated submission (created at 2). -/
def valTransB : TransRow :=
  { trans_id := 22, audio_id := 12, transcription := "second text",
    speaker_gender := some "female", has_noise := some true, is_code_mixed := some false,
    is_speaker_overlappings_exist := some false, is_audio_suitable := some true,
    admin := none, validated_at := none, created_at := some 2 }

/-- An already-validated submission (validated at time 4). -/
def valTransV : TransRow :=
  { trans_id := 23, audio_id := 12, transcription := "third text",
    speaker_gender := some "male", has_noise := some false, is_code_mixed := some false,
    is_speaker_overlappings_exist := some false, is_audio_suitable := some true,
    admin := some "rusira", validated_at := some 4, created_at := some 3 }

/-- Validation-queue sample database (transcriptions listed out of
creation order to exercise the `ORDER BY`). -/
def valDB : DB :=
  { audios := [valAudio1, valAudio2], transcriptions := [valTransB, valTransV, valTransA] }

/-- `valDB` after the validation lease on `valAudio1` is taken at time 5. -/
def valDBAfter : DB :=
  { audios := [{ valAudio1 with leased_until := some 20 }, valAudio2],
    transcriptions := [valTransB, valTransV, valTransA] }

/-- A reviewer correction payload. -/
def sampleUpdate : TranscriptionValidationUpdate :=
  { transcription := " corrected text ", speaker_gender := "male", has_noise := false,
    is_code_mixed := true, is_speaker_overlappings_exist := false,
    is_audio_suitable := some true, admin := some "sahan" }

-- sanity: the queue returns the oldest candidate first
example : get_next_unvalidated_transcription 5 valDB = (some (valTransA, valAudio1), valDBAfter) := by
  decide

/-! ### Claim theorems -/

/-- C1: for any number of concurrent (serialised one atomic row-locking
transaction at a time) `claim()` calls against a pool with distinct primary
keys, no two calls receive the same item, exactly `min(N, M)` calls succeed
where `M` is the number of eligible items, the remaining calls return empty,
and a caller whose transaction aborts before committing the reservation
leaves the pool exactly as it was, holding no lease. -/
theorem claim_mutual_exclusion (now n : Nat) (db : DB)
    (hids : (db.audios.map (fun a => a.audio_id)).Nodup) :
    (claimedIds (runClaims now n db).1).length = min n (eligibleIds now db).length ∧
    (claimedIds (runClaims now n db).1).Nodup ∧
    (runClaims now n db).1.length = n ∧
    claim_audio_aborted now db = db := by
  obtain ⟨h1, h2, h3, h4⟩ := runClaims_spec now n db hids
  exact ⟨h1, h2, h4, claim_audio_aborted_eq now db⟩

/-- Witness for C1: three claims against a two-item pool — two succeed with
distinct items, the third is empty, and an aborted claim changes nothing. -/
theorem claim_mutual_exclusion_witness :
    (claimedIds (runClaims 0 3 sampleDB).1).length = 2 ∧
    (claimedIds (runClaims 0 3 sampleDB).1).Nodup ∧
    (runClaims 0 3 sampleDB).1.length = 3 ∧
    claim_audio_aborted 0 sampleDB = sampleDB := by
  have h := claim_mutual_exclusion 0 3 sampleDB (by decide)
  have hlen : (eligibleIds 0 sampleDB).length = 2 := by decide
  rw [hlen] at h
  exact h

/-- C2: `claim()` returns the eligible row (`transcription_count` strictly
below the ceiling, lease `NULL` or strictly in the past) minimising the pair
`(transcription_count, audio_id)`, stamps its lease to `now` plus the lease
duration, never returns an ineligible row, and returns `none` with the pool
unchanged (no error) when no eligible row exists. -/
theorem claim_selects_min_eligible (now : Nat) (db : DB) :
    (∀ r db', claim_audio_for_transcription now db = (some r, db') →
      ∃ a, a ∈ db.audios ∧
        a.transcription_count < settings_MAX_TRANSCRIPTIONS ∧
        leaseExpired now a.leased_until = true ∧
        (∀ b ∈ db.audios, audioEligible now b = true →
          a.transcription_count < b.transcription_count ∨
            (a.transcription_count = b.transcription_count ∧ a.audio_id ≤ b.audio_id)) ∧
        r = { a with leased_until := some (now + settings_LEASE_TIMEOUT_MINUTES) } ∧
        db' = { db with audios := setLease (some (now + settings_LEASE_TIMEOUT_MINUTES)) a.audio_id db.audios }) ∧
    (db.audios.filter (audioEligible now) = [] →
      claim_audio_for_transcription now db = (none, db)) := by
  constructor
  · intro r db' h
    obtain ⟨a, hmem, helig, hmin, hr, hdb⟩ := claim_some_spec h
    obtain ⟨h1, h2⟩ : a.transcription_count < settings_MAX_TRANSCRIPTIONS ∧
        leaseExpired now a.leased_until = true := by
      simpa [audioEligible] using helig
    exact ⟨a, hmem, h1, h2, fun b hb he => hmin b hb he, hr, hdb⟩
  · intro hfil
    have hsel : selectMin (db.audios.filter (audioEligible now)) = none := by
      rw [hfil]; rfl
    exact claim_eq_of_selectMin_none hsel

/-- Witness for C2: a pool whose only row is at the completion ceiling
yields an empty result and an unchanged pool. -/
theorem claim_selects_min_eligible_witness :
    claim_audio_for_transcription 5 saturatedDB = (none, saturatedDB) :=
  (claim_selects_min_eligible 5 saturatedDB).2 (by decide)

/-- C3 (failing-input evaluation): submitting against `scrubDB`, whose only
item is leased until time 100, succeeds and inserts the Submission row, yet
the item's `leased_until` is still 100 afterwards — `create_transcription`
and its endpoint never touch the lease — so an immediate `claim()` at time
10 returns empty, and the item only becomes claimable again at time 101
after natural expiry. -/
theorem submission_does_not_release_lease :
    ((post_transcription GcsOutcome.deleted 7 scrubDB unsuitableRaw).1.isOk = true) ∧
    ((post_transcription GcsOutcome.deleted 7 scrubDB unsuitableRaw).2.1.transcriptions.length = 1) ∧
    ((post_transcription GcsOutcome.deleted 7 scrubDB unsuitableRaw).2.1.audios.map
        (fun a => a.leased_until) = [some 100]) ∧
    ((claim_audio_for_transcription 10
        (post_transcription GcsOutcome.deleted 7 scrubDB unsuitableRaw).2.1).1 = none) ∧
    ((claim_audio_for_transcription 101
        (post_transcription GcsOutcome.deleted 7 scrubDB unsuitableRaw).2.1).1.isSome = true) := by
  refine ⟨rfl, rfl, rfl, by decide, by decide⟩

/-- C4 (counterexample): an unsuitable submission carrying the non-empty
text "still audible speech" produces a Submission row whose content is that
text, not the fixed placeholder string. -/
theorem unsuitable_scrub_counterexample :
    ((post_transcription GcsOutcome.raised 8 scrubDB unsuitableRaw).2.1.transcriptions.map
        (fun t => t.transcription) = ["still audible speech"]) ∧
    ((post_transcription GcsOutcome.raised 8 scrubDB unsuitableRaw).2.1.transcriptions.map
        (fun t => t.transcription) ≠ [placeholderText]) := by
  exact ⟨rfl, by decide⟩

/-- C4 (amended): an unsuitable submission with non-blank content against an
existing item appends exactly one Submission row whose quality-metadata,
attribution and timestamp fields are all null and whose content is the
submitted text (trimmed) — the placeholder is never substituted for
non-empty text; the parent row is scrubbed (`audio_filename` reset to the
sentinel, annotation replaced by the placeholder, timing/provenance fields
cleared); one best-effort delete of the original payload is issued; and all
of this holds for every delete outcome, including a raised exception. -/
theorem unsuitable_scrub_amended (g : GcsOutcome) (newId : Nat) (db : DB)
    (raw : RawSubmission) (a₀ : AudioRow)
    (hunsuit : raw.is_audio_suitable = some false)
    (hcontent : pyStrip raw.transcription ≠ "")
    (hfind : db.audios.find? (fun a => a.audio_id == raw.audio_id) = some a₀) :
    ∃ row db₂,
      post_transcription g newId db raw = (Except.ok row, db₂, [(a₀.audio_filename, g)]) ∧
      db₂.transcriptions = db.transcriptions ++ [row] ∧
      row.transcription = pyStrip raw.transcription ∧
      row.speaker_gender = none ∧ row.has_noise = none ∧ row.is_code_mixed = none ∧
      row.is_speaker_overlappings_exist = none ∧ row.admin = none ∧
      row.validated_at = none ∧ row.created_at = none ∧
      row.is_audio_suitable = some false ∧ row.audio_id = raw.audio_id ∧
      scrubAudioRow a₀ ∈ db₂.audios ∧
      (scrubAudioRow a₀).audio_filename = "not_suitable" ∧
      (scrubAudioRow a₀).google_transcription = some placeholderText ∧
      (scrubAudioRow a₀).start_time = none ∧ (scrubAudioRow a₀).end_time = none ∧
      (scrubAudioRow a₀).padded_duration = none ∧ (scrubAudioRow a₀).created_at = none ∧
      (∀ b ∈ db.audios, b.audio_id ≠ raw.audio_id → b ∈ db₂.audios) ∧
      db₂.audios.length = db.audios.length := by
  have hne : (raw.transcription == "") = false := by
    rcases h : raw.transcription == "" with - | -
    · rfl
    · exact absurd (by rw [show raw.transcription = "" from by simpa using h]; rfl) hcontent
  have hval : validate_transcription_text raw.transcription none =
      Except.ok (pyStrip raw.transcription) := by
    have hb : (pyStrip raw.transcription == "") = false := by
      simpa using hcontent
    simp [validate_transcription_text, hb]
  have hmk : mkTranscriptionCreate raw = Except.ok
      { audio_id := raw.audio_id, transcription := pyStrip raw.transcription,
        speaker_gender := raw.speaker_gender, has_noise := raw.has_noise,
        is_code_mixed := raw.is_code_mixed,
        is_speaker_overlappings_exist := raw.is_speaker_overlappings_exist,
        is_audio_suitable := raw.is_audio_suitable, admin := raw.admin,
        is_validated := raw.is_validated } := by
    simp [mkTranscriptionCreate, hne, hval]
  have ha0mem : a₀ ∈ db.audios := List.mem_of_find?_eq_some hfind
  have ha0id : (a₀.audio_id == raw.audio_id) = true := by
    have h := List.find?_some hfind
    simpa using h
  have hany : db.audios.any (fun a => a.audio_id == raw.audio_id) = true :=
    List.any_eq_true.mpr ⟨a₀, ha0mem, ha0id⟩
  refine ⟨unsuitableTransRow newId { audio_id := raw.audio_id, transcription := pyStrip raw.transcription, speaker_gender := raw.speaker_gender, has_noise := raw.has_noise, is_code_mixed := raw.is_code_mixed, is_speaker_overlappings_exist := raw.is_speaker_overlappings_exist, is_audio_suitable := raw.is_audio_suitable, admin := raw.admin, is_validated := raw.is_validated },
    { audios := db.audios.map (fun a => if a.audio_id == raw.audio_id then scrubAudioRow a else a),
      transcriptions := db.transcriptions ++ [unsuitableTransRow newId { audio_id := raw.audio_id, transcription := pyStrip raw.transcription, speaker_gender := raw.speaker_gender, has_noise := raw.has_noise, is_code_mixed := raw.is_code_mixed, is_speaker_overlappings_exist := raw.is_speaker_overlappings_exist, is_audio_suitable := raw.is_audio_suitable, admin := raw.admin, is_validated := raw.is_validated }] },
    ?_, rfl, rfl, rfl, rfl, rfl, rfl, rfl, rfl, rfl, rfl, rfl, ?_, rfl, rfl, rfl, rfl,
    rfl, rfl, ?_, ?_⟩
  · simp only [post_transcription, hmk, hany, if_true]
    simp [create_transcription, hunsuit, hfind, unsuitableTransRow]
  · exact List.mem_map.mpr ⟨a₀, ha0mem, by simp [ha0id]⟩
  · intro b hb hbid
    exact List.mem_map.mpr ⟨b, hb, by simp [hbid]⟩
  · simp

/-- Witness for the amended C4: the concrete unsuitable submission against
`scrubDB` succeeds, issues the delete call for the original filename even
though the delete raises, and appends exactly one Submission row. -/
theorem unsuitable_scrub_amended_witness :
    ∃ row db₂,
      post_transcription GcsOutcome.raised 9 scrubDB unsuitableRaw =
        (Except.ok row, db₂, [("clip1.wav", GcsOutcome.raised)]) ∧
      db₂.transcriptions = scrubDB.transcriptions ++ [row] ∧
      row.transcription = pyStrip unsuitableRaw.transcription := by
  obtain ⟨row, db₂, h1, h2, h3, -⟩ :=
    unsuitable_scrub_amended GcsOutcome.raised 9 scrubDB unsuitableRaw leasedAudio rfl
      (by decide) (by decide)
  exact ⟨row, db₂, h1, h2, h3⟩

/-- C5: the validation queue examines a window of at most five candidate
pairs, each suitable, unvalidated and with an expired/unset parent lease;
a successful call returns a window member that is minimal in submission
creation order (`NULLS LAST`) among all candidates, having leased its
parent; when there is no leasable candidate the call returns nothing with
the state unchanged, and an empty result only happens with an empty
candidate set. -/
theorem validation_queue_fifo (now : Nat) (db : DB) :
    (validationWindow now db).length ≤ 5 ∧
    (∀ p ∈ validationWindow now db,
      p.1 ∈ db.transcriptions ∧ p.2 ∈ db.audios ∧ p.2.audio_id = p.1.audio_id ∧
      p.1.is_audio_suitable = some true ∧ p.1.validated_at = none ∧
      leaseExpired now p.2.leased_until = true) ∧
    (∀ t a db', get_next_unvalidated_transcription now db = (some (t, a), db') →
      (t, a) ∈ validationWindow now db ∧
      (∀ q ∈ validationCandidates now db, createdLe (t, a) q) ∧
      (lease_audio_for_validation now db t.audio_id).1 = true ∧
      db' = (lease_audio_for_validation now db t.audio_id).2) ∧
    (validationCandidates now db = [] →
      get_next_unvalidated_transcription now db = (none, db)) ∧
    ((get_next_unvalidated_transcription now db).1 = none →
      validationCandidates now db = []) := by
  refine ⟨List.length_take_le 5 _, ?_, ?_, get_next_of_no_candidates, ?_⟩
  · intro p hp
    exact mem_validationCandidates (window_subset_candidates hp)
  · intro t a db' h
    cases hw : validationWindow now db with
    | nil =>
      have h0 : get_next_unvalidated_transcription now db = (none, db) :=
        get_next_of_no_candidates (window_nil_iff.mp hw)
      rw [h0] at h
      exact absurd (congrArg Prod.fst h) (by simp)
    | cons p rest =>
      have h2 := get_next_of_window_cons hw
      rw [h2] at h
      have hp : p = (t, a) := by
        have := congrArg Prod.fst h
        simpa using this
      subst hp
      have hwin : (t, a) ∈ validationWindow now db := by
        rw [hw]; exact List.mem_cons_self _ _
      refine ⟨List.mem_cons_self _ _, sorted_head_min hw,
        lease_true_of_candidate (window_subset_candidates hwin),
        (congrArg Prod.snd h).symm⟩
  · intro h
    cases hw : validationWindow now db with
    | nil => exact window_nil_iff.mp hw
    | cons p rest =>
      have h2 := get_next_of_window_cons hw
      rw [h2] at h
      simp at h

/-- Witness for C5: in `valDB` the queue returns the oldest candidate
`valTransA`, a window member minimal in creation order among candidates. -/
theorem validation_queue_fifo_witness :
    (valTransA, valAudio1) ∈ validationWindow 5 valDB ∧
    (∀ q ∈ validationCandidates 5 valDB, createdLe (valTransA, valAudio1) q) := by
  obtain ⟨h1, h2, -, -⟩ :=
    (validation_queue_fifo 5 valDB).2.2.1 valTransA valAudio1 valDBAfter (by decide)
  exact ⟨h1, h2⟩

/-- C6: a submission returned by the validation queue always has
`validated_at` unset, and (with distinct submission keys) never has the key
of any already-validated row, so a validated submission is never re-enqueued;
`validate()` stamps `validated_at` with the current time; and a second
`validate()` call against an already-validated submission is not prevented —
it succeeds and simply re-applies the corrections. -/
theorem validated_at_one_way (now : Nat) (db : DB)
    (hnodup : (db.transcriptions.map (fun t => t.trans_id)).Nodup) :
    (∀ t a db', get_next_unvalidated_transcription now db = (some (t, a), db') →
      t.validated_at = none ∧ t ∈ db.transcriptions ∧
      ∀ s ∈ db.transcriptions, s.validated_at ≠ none → t.trans_id ≠ s.trans_id) ∧
    (∀ tid u t₀, db.transcriptions.find? (fun t => t.trans_id == tid) = some t₀ →
      (validate_transcription now db tid u).1 = Except.ok (applyValidation now u t₀) ∧
      (applyValidation now u t₀).validated_at = some now) ∧
    (∀ tid u t₀ v, db.transcriptions.find? (fun t => t.trans_id == tid) = some t₀ →
      t₀.validated_at = some v →
      (validate_transcription now db tid u).1 = Except.ok (applyValidation now u t₀)) := by
  refine ⟨?_, ?_, ?_⟩
  · intro t a db' h
    cases hw : validationWindow now db with
    | nil =>
      have h0 : get_next_unvalidated_transcription now db = (none, db) :=
        get_next_of_no_candidates (window_nil_iff.mp hw)
      rw [h0] at h
      exact absurd (congrArg Prod.fst h) (by simp)
    | cons p rest =>
      have h2 := get_next_of_window_cons hw
      rw [h2] at h
      have hp : p = (t, a) := by
        have := congrArg Prod.fst h
        simpa using this
      subst hp
      obtain ⟨hmem, -, -, -, hval, -⟩ :=
        mem_validationCandidates (window_subset_candidates (show ((t, a) : TransRow × AudioRow) ∈ validationWindow now db by rw [hw]; exact List.mem_cons_self _ _))
      refine ⟨hval, hmem, ?_⟩
      intro s hs hsval heq
      have : t = s := List.inj_on_of_nodup_map hnodup hmem hs heq
      rw [this] at hval
      exact hsval hval
  · intro tid u t₀ hfind
    exact ⟨by simp [validate_transcription, hfind], by simp [applyValidation]⟩
  · intro tid u t₀ v hfind hval
    simp [validate_transcription, hfind]

/-- Witness for C6: validating the already-validated `valTransV` (id 23) is
not prevented and stamps a fresh `validated_at`. -/
theorem validated_at_one_way_witness :
    (validate_transcription 9 valDB 23 sampleUpdate).1 =
      Except.ok (applyValidation 9 sampleUpdate valTransV) ∧
    (applyValidation 9 sampleUpdate valTransV).validated_at = some 9 := by
  have h := (validated_at_one_way 9 valDB (by decide)).2.1 23 sampleUpdate valTransV (by decide)
  exact h

/-- C7: `release(item_id)` stamps `leased_until` with the current time for
the matching row unconditionally, leaves every other row untouched, returns
`True` exactly when a row with that id exists, is idempotent (releasing an
already-released item repeats the same result and state), and on a missing
id returns `False` with the state unchanged instead of raising. -/
theorem release_unconditional_idempotent (now : Nat) (db : DB) (aid : Nat) :
    ((release_audio_lease now db aid).1 = true ↔ ∃ a ∈ db.audios, a.audio_id = aid) ∧
    (∀ a ∈ db.audios, a.audio_id = aid →
      { a with leased_until := some now } ∈ (release_audio_lease now db aid).2.audios) ∧
    (∀ a ∈ db.audios, a.audio_id ≠ aid → a ∈ (release_audio_lease now db aid).2.audios) ∧
    (release_audio_lease now (release_audio_lease now db aid).2 aid =
      release_audio_lease now db aid) ∧
    ((¬ ∃ a ∈ db.audios, a.audio_id = aid) → release_audio_lease now db aid = (false, db)) := by
  by_cases hany : db.audios.any (fun a => a.audio_id == aid) = true
  · have hstate : release_audio_lease now db aid =
        (true, { db with audios := setLease (some now) aid db.audios }) := by
      simp [release_audio_lease, hany]
    refine ⟨?_, ?_, ?_, ?_, ?_⟩
    · rw [hstate]
      simp only [true_iff]
      obtain ⟨a, ha, hid⟩ := List.any_eq_true.mp hany
      exact ⟨a, ha, by simpa using hid⟩
    · intro a ha hid
      rw [hstate]
      exact mem_setLease_self _ ha hid
    · intro a ha hid
      rw [hstate]
      exact mem_setLease_other _ ha hid
    · have hany2 : (setLease (some now) aid db.audios).any
          (fun a => a.audio_id == aid) = true := by
        rw [any_id_setLease]; exact hany
      rw [hstate]
      simp [release_audio_lease, hany2, setLease_idem]
    · intro hne
      obtain ⟨a, ha, hid⟩ := List.any_eq_true.mp hany
      exact absurd ⟨a, ha, by simpa using hid⟩ hne
  · have hany' : db.audios.any (fun a => a.audio_id == aid) = false := by
      simpa using hany
    have hstate : release_audio_lease now db aid = (false, db) := by
      simp [release_audio_lease, hany']
    have hnone : ¬ ∃ a ∈ db.audios, a.audio_id = aid := by
      intro ⟨a, ha, hid⟩
      have h2 : db.audios.any (fun b => b.audio_id == aid) = true :=
        List.any_eq_true.mpr ⟨a, ha, by simpa using hid⟩
      rw [hany'] at h2
      cases h2
    refine ⟨?_, ?_, ?_, ?_, ?_⟩
    · rw [hstate]
      exact iff_of_false (by simp) hnone
    · intro a ha hid
      exact absurd ⟨a, ha, hid⟩ hnone
    · intro a ha _
      rw [hstate]
      exact ha
    · rw [hstate]
      exact hstate
    · intro _
      exact hstate

/-- Witness for C7: releasing item 2 of `sampleDB` succeeds. -/
theorem release_unconditional_idempotent_witness :
    (release_audio_lease 7 sampleDB 2).1 = true :=
  (release_unconditional_idempotent 7 sampleDB 2).1.mpr ⟨sampleAudioA, by decide, rfl⟩

/-- C8: a submission flagged suitable whose content is empty after trimming
is rejected by the request-body validation with a validation error — the
endpoint performs no database write and issues no external call. -/
theorem suitable_blank_content_rejected (g : GcsOutcome) (newId : Nat) (db : DB)
    (raw : RawSubmission) (hsuit : raw.is_audio_suitable = some true)
    (hblank : pyStrip raw.transcription = "") :
    ∃ msg, post_transcription g newId db raw =
      (Except.error (ApiError.validationFailure msg), db, []) := by
  have _hs := hsuit
  by_cases hempty : (raw.transcription == "") = true
  · refine ⟨"String should have at least 1 character", ?_⟩
    simp [post_transcription, mkTranscriptionCreate, hempty]
  · have hempty' : (raw.transcription == "") = false := by simpa using hempty
    refine ⟨"Transcription text cannot be empty", ?_⟩
    have hb : (pyStrip raw.transcription == "") = true := by simp [hblank]
    simp [post_transcription, mkTranscriptionCreate, hempty', validate_transcription_text, hb]

/-- Witness for C8: a whitespace-only suitable submission is rejected with
no state change. -/
theorem suitable_blank_content_rejected_witness :
    ∃ msg, post_transcription GcsOutcome.deleted 3 sampleDB blankRaw =
      (Except.error (ApiError.validationFailure msg), sampleDB, []) :=
  suitable_blank_content_rejected GcsOutcome.deleted 3 sampleDB blankRaw rfl (by decide)

/-- C9: `validate()` on an existing submission overwrites the content
(trimmed) and the quality-metadata fields with the reviewer-corrected
values (`is_audio_suitable` only when the update carries one, otherwise it
is kept), sets `validated_at` to the current time, and leaves the original
reviewer attribution (`admin`) and the row identity untouched. -/
theorem validate_overwrites_preserving_admin (now : Nat) (db : DB) (tid : Nat)
    (u : TranscriptionValidationUpdate) (t₀ : TransRow)
    (hfind : db.transcriptions.find? (fun t => t.trans_id == tid) = some t₀) :
    ∃ t', (validate_transcription now db tid u).1 = Except.ok t' ∧
      t'.admin = t₀.admin ∧
      t'.validated_at = some now ∧
      t'.transcription = pyStrip u.transcription ∧
      t'.speaker_gender = some u.speaker_gender ∧
      t'.has_noise = some u.has_noise ∧
      t'.is_code_mixed = some u.is_code_mixed ∧
      t'.is_speaker_overlappings_exist = some u.is_speaker_overlappings_exist ∧
      (∀ b, u.is_audio_suitable = some b → t'.is_audio_suitable = some b) ∧
      (u.is_audio_suitable = none → t'.is_audio_suitable = t₀.is_audio_suitable) ∧
      t'.trans_id = t₀.trans_id ∧ t'.audio_id = t₀.audio_id := by
  refine ⟨applyValidation now u t₀, by simp [validate_transcription, hfind],
    rfl, rfl, rfl, rfl, rfl, rfl, rfl, ?_, ?_, rfl, rfl⟩
  · intro b hb
    simp [applyValidation, hb]
  · intro hb
    simp [applyValidation, hb]

/-- Witness for C9: validating `valTransA` applies `sampleUpdate` but keeps
the original attribution `chirath`, not the validator `sahan`. -/
theorem validate_overwrites_preserving_admin_witness :
    ∃ t', (validate_transcription 9 valDB 21 sampleUpdate).1 = Except.ok t' ∧
      t'.admin = some "chirath" ∧ t'.validated_at = some 9 := by
  obtain ⟨t', h1, h2, h3, -⟩ :=
    validate_overwrites_preserving_admin 9 valDB 21 sampleUpdate valTransA (by decide)
  exact ⟨t', h1, h2, h3⟩

/-- C10: `lease_audio_for_validation` succeeds exactly when a row with the
given id exists — with no eligibility condition, so it succeeds even over
another holder's unexpired lease or at the completion ceiling — stamping
`leased_until` to `now` plus the lease duration; a missing id yields
`False` with the state unchanged; consequently every lease attempt in the
validation fallback loop succeeds, and a non-empty candidate window always
produces a result. -/
theorem lease_for_validation_unconditional (now : Nat) (db : DB) (aid : Nat) :
    ((lease_audio_for_validation now db aid).1 = true ↔ ∃ a ∈ db.audios, a.audio_id = aid) ∧
    (∀ a ∈ db.audios, a.audio_id = aid →
      { a with leased_until := some (now + settings_LEASE_TIMEOUT_MINUTES) } ∈
        (lease_audio_for_validation now db aid).2.audios) ∧
    ((¬ ∃ a ∈ db.audios, a.audio_id = aid) → lease_audio_for_validation now db aid = (false, db)) ∧
    (∀ p ∈ validationWindow now db, (lease_audio_for_validation now db p.1.audio_id).1 = true) ∧
    (validationWindow now db ≠ [] → (get_next_unvalidated_transcription now db).1.isSome = true) := by
  refine ⟨?_, ?_, ?_, ?_, ?_⟩
  · by_cases hany : db.audios.any (fun a => a.audio_id == aid) = true
    · rw [lease_state_of_true hany]
      obtain ⟨a, ha, hid⟩ := List.any_eq_true.mp hany
      exact iff_of_true rfl ⟨a, ha, by simpa using hid⟩
    · have hany' : db.audios.any (fun a => a.audio_id == aid) = false := by simpa using hany
      have hstate : lease_audio_for_validation now db aid = (false, db) := by
        simp [lease_audio_for_validation, hany']
      rw [hstate]
      refine iff_of_false (by simp) ?_
      intro ⟨a, ha, hid⟩
      have h2 : db.audios.any (fun b => b.audio_id == aid) = true :=
        List.any_eq_true.mpr ⟨a, ha, by simpa using hid⟩
      rw [hany'] at h2
      cases h2
  · intro a ha hid
    have hany : db.audios.any (fun b => b.audio_id == aid) = true :=
      List.any_eq_true.mpr ⟨a, ha, by simpa using hid⟩
    rw [lease_state_of_true hany]
    exact mem_setLease_self _ ha hid
  · intro hne
    have hany' : db.audios.any (fun b => b.audio_id == aid) = false := by
      rcases h : db.audios.any (fun b => b.audio_id == aid) with - | -
      · rfl
      · obtain ⟨a, ha, hid⟩ := List.any_eq_true.mp h
        exact absurd ⟨a, ha, by simpa using hid⟩ hne
    simp [lease_audio_for_validation, hany']
  · intro p hp
    exact lease_true_of_candidate (window_subset_candidates hp)
  · intro hne
    cases hw : validationWindow now db with
    | nil => exact absurd hw hne
    | cons p rest =>
      rw [get_next_of_window_cons hw]
      rfl

/-- Witness for C10: at time 1, `valAudio2`'s lease (until time 2) is still
active, yet leasing it for validation succeeds. -/
theorem lease_for_validation_unconditional_witness :
    (lease_audio_for_validation 1 valDB 12).1 = true :=
  (lease_for_validation_unconditional 1 valDB 12).1.mpr ⟨valAudio2, by decide, rfl⟩
